import Mathlib

set_option autoImplicit false

/-!
Shallow embedding of the NL2SQL e-commerce agent core components
(`nl2sql/rate_limiter.py`, `nl2sql/cache.py`, `nl2sql/validator.py`)
and proofs about them.

Modelling conventions:
  * Python `float` timestamps are modelled as `ℚ` (exact arithmetic over the
    values the code manipulates); Python `int` as `ℤ`.
  * Python strings are modelled as `List Char`.
  * The non-reentrant `threading.Lock` is modelled explicitly where it
    matters: acquiring a lock that the calling thread already holds blocks
    forever, which we model as the absent result `none`.
  * External collaborators (the sqlglot parse call, the
    `db_manager.get_schema_info()` schema introspection, the sha256 key
    digest) are parameters of the embedded functions: the repository code
    only consumes their results.
-/

namespace NL2SQL

/-! ## Rate limiter (`nl2sql/rate_limiter.py`, class `RateLimiter`) -/

/-- Mutable state of a `RateLimiter` instance: configured limits, the two
token windows with the timestamp of their last refill, and the two
statistics counters. -/
structure LimiterState where
  rpmLimit : Int
  rpdLimit : Int
  minuteTokens : Int
  minuteLastRefill : Rat
  dayTokens : Int
  dayLastRefill : Rat
  totalRequests : Int
  totalBlocked : Int
  deriving Repr, DecidableEq

/-- Constructor `RateLimiter.__init__`: both windows start full, both
refill timestamps start at the current time, counters at zero. -/
def initLimiter (requestsPerMinute requestsPerDay : Int) (now : Rat) : LimiterState :=
  { rpmLimit := requestsPerMinute
    rpdLimit := requestsPerDay
    minuteTokens := requestsPerMinute
    minuteLastRefill := now
    dayTokens := requestsPerDay
    dayLastRefill := now
    totalRequests := 0
    totalBlocked := 0 }

/-- First half of `RateLimiter._refill_tokens`: if at least 60 seconds
elapsed since the minute refill, restore the minute window to
`rpm_limit`. -/
def refillMinute (s : LimiterState) (now : Rat) : LimiterState :=
  if 60 ≤ now - s.minuteLastRefill then
    { s with minuteTokens := s.rpmLimit, minuteLastRefill := now }
  else s

/-- Second half of `RateLimiter._refill_tokens`: if at least 86400 seconds
elapsed since the day refill, restore the day window to `rpd_limit`. -/
def refillDay (s : LimiterState) (now : Rat) : LimiterState :=
  if 86400 ≤ now - s.dayLastRefill then
    { s with dayTokens := s.rpdLimit, dayLastRefill := now }
  else s

/-- `RateLimiter._refill_tokens`: the minute reset followed by the day
reset, both against the same clock reading. -/
def refillTokens (s : LimiterState) (now : Rat) : LimiterState :=
  refillDay (refillMinute s now) now

/-- Outcome of one pass through the `while True` body of
`RateLimiter.acquire`: the call returns `True`, returns `False`, or (in the
blocking form) sleeps and retries. -/
inductive AcquireOutcome where
  | granted
  | denied
  | retry
  deriving Repr, DecidableEq

/-- One iteration of the critical section of `RateLimiter.acquire`: refill
both windows, then either consume one token from each window (incrementing
`total_requests`) or record a block (incrementing `total_blocked`); a
blocked non-blocking call returns `False`, a blocked blocking call goes on
to retry. -/
def acquireStep (blocking : Bool) (s : LimiterState) (now : Rat) :
    AcquireOutcome × LimiterState :=
  let s := refillTokens s now
  if s.minuteTokens > 0 ∧ s.dayTokens > 0 then
    (AcquireOutcome.granted,
      { s with minuteTokens := s.minuteTokens - 1
               dayTokens := s.dayTokens - 1
               totalRequests := s.totalRequests + 1 })
  else
    let s := { s with totalBlocked := s.totalBlocked + 1 }
    if blocking then (AcquireOutcome.retry, s) else (AcquireOutcome.denied, s)

/-- `RateLimiter.acquire` with `blocking=False`: a single pass through the
loop body, returning `True` exactly on admission. -/
def acquireNonBlocking (s : LimiterState) (now : Rat) : Bool × LimiterState :=
  match acquireStep false s now with
  | (AcquireOutcome.granted, s1) => (true, s1)
  | (_, s1) => (false, s1)

/-- A sequence of non-blocking `acquire` calls at the given clock
readings, collecting the returned booleans. -/
def acquireSeq (s : LimiterState) : List Rat → List Bool × LimiterState
  | [] => ([], s)
  | t :: ts =>
    let r := acquireNonBlocking s t
    let rest := acquireSeq r.2 ts
    (r.1 :: rest.1, rest.2)

/-- The full retry loop of `RateLimiter.acquire`, fuelled. `times 2n` is
the clock value read inside the lock on iteration `n`; `times (2n+1)` is
the clock value read by the timeout check after iteration `n`. `none`
means the loop is still running after `fuel` iterations. -/
def acquireLoop (blocking : Bool) (timeout : Option Rat) (startTime : Rat)
    (times : Nat → Rat) : Nat → Nat → LimiterState → Option Bool × LimiterState
  | 0, _, s => (none, s)
  | fuel + 1, n, s =>
    let r := acquireStep blocking s (times (2 * n))
    match r.1 with
    | AcquireOutcome.granted => (some true, r.2)
    | AcquireOutcome.denied => (some false, r.2)
    | AcquireOutcome.retry =>
      match timeout with
      | some t =>
        if times (2 * n + 1) - startTime ≥ t then (some false, r.2)
        else acquireLoop blocking timeout startTime times fuel (n + 1) r.2
      | none => acquireLoop blocking timeout startTime times fuel (n + 1) r.2

/-- The computation inside the lock of `RateLimiter.get_wait_time`: refill
both windows; 0 if both have tokens; else the remaining minute window if
the minute window is exhausted, else the remaining day window, clamped at
zero by `max(0, ...)`. -/
def getWaitTimeCore (s : LimiterState) (now : Rat) : Rat × LimiterState :=
  let s := refillTokens s now
  if s.minuteTokens > 0 ∧ s.dayTokens > 0 then (0, s)
  else if s.minuteTokens ≤ 0 then
    (max 0 (60 - (now - s.minuteLastRefill)), s)
  else
    (max 0 (86400 - (now - s.dayLastRefill)), s)

/-- `RateLimiter.get_wait_time` as called by a thread: `held` records
whether the calling thread already holds the limiter's internal
`threading.Lock`, which is not reentrant, so the `with self._lock`
acquisition blocks forever (`none`) when `held = true`. -/
def getWaitTimeLocked (held : Bool) (s : LimiterState) (now : Rat) :
    Option (Rat × LimiterState) :=
  if held then none else some (getWaitTimeCore s now)

/-- The record built by `RateLimiter.get_stats`. -/
structure LimiterStats where
  totalRequests : Int
  totalBlocked : Int
  minuteTokensRemaining : Int
  minuteTokensLimit : Int
  dayTokensRemaining : Int
  dayTokensLimit : Int
  estimatedWaitSeconds : Rat
  deriving Repr, DecidableEq

/-- `RateLimiter.get_stats` as called by a thread: it acquires the
non-reentrant `threading.Lock` (blocking forever if the caller already
holds it), refills the windows, then builds the statistics dictionary whose
`estimated_wait_seconds` field calls `self.get_wait_time()` — with the lock
now held by this same thread. -/
def getStats (held : Bool) (s : LimiterState) (now : Rat) :
    Option (LimiterStats × LimiterState) :=
  if held then none
  else
    let s1 := refillTokens s now
    match getWaitTimeLocked true s1 now with
    | none => none
    | some r =>
      some ({ totalRequests := s1.totalRequests
              totalBlocked := s1.totalBlocked
              minuteTokensRemaining := s1.minuteTokens
              minuteTokensLimit := s1.rpmLimit
              dayTokensRemaining := s1.dayTokens
              dayTokensLimit := s1.rpdLimit
              estimatedWaitSeconds := r.1 }, r.2)

/-- `RateLimiter.reset`: both windows back to full capacity starting now,
counters zeroed. -/
def resetLimiter (s : LimiterState) (now : Rat) : LimiterState :=
  { s with minuteTokens := s.rpmLimit
           dayTokens := s.rpdLimit
           minuteLastRefill := now
           dayLastRefill := now
           totalRequests := 0
           totalBlocked := 0 }

/-- The token-range invariant of the limiter state, as stated by the spec
data model: each window's remaining count lies between 0 and its limit. -/
def LimiterInv (s : LimiterState) : Prop :=
  0 ≤ s.minuteTokens ∧ s.minuteTokens ≤ s.rpmLimit ∧
    0 ≤ s.dayTokens ∧ s.dayTokens ≤ s.rpdLimit

instance (s : LimiterState) : Decidable (LimiterInv s) := by
  unfold LimiterInv; infer_instance

/-! ## Query cache (`nl2sql/cache.py`, class `QueryCache`)

The sha256 digest of `QueryCache._generate_key` is an external library
call (`hashlib`); the cache operations are parameterised by the key
function `genKey`. The Python `dict` is modelled as an association list
with overwrite-on-insert. -/

/-- Look up a key in the association list modelling the cache dict. -/
def assocFind (key : List Char) :
    List (List Char × (List Char × Rat)) → Option (List Char × Rat)
  | [] => none
  | (k, v) :: rest => if k = key then some v else assocFind key rest

/-- Remove a key from the association list (Python `del cache[key]`). -/
def assocErase (key : List Char) :
    List (List Char × (List Char × Rat)) → List (List Char × (List Char × Rat))
  | [] => []
  | (k, v) :: rest =>
    if k = key then assocErase key rest else (k, v) :: assocErase key rest

/-- Insert or overwrite a key (Python `cache[key] = value`). -/
def assocUpsert (key : List Char) (v : List Char × Rat)
    (l : List (List Char × (List Char × Rat))) :
    List (List Char × (List Char × Rat)) :=
  (key, v) :: assocErase key l

/-- Mutable state of a `QueryCache` instance. -/
structure CacheState where
  ttl : Int
  entries : List (List Char × (List Char × Rat))
  hits : Nat
  misses : Nat
  deriving Repr, DecidableEq

/-- Constructor `QueryCache.__init__`. -/
def initCache (ttl : Int) : CacheState :=
  { ttl := ttl, entries := [], hits := 0, misses := 0 }

/-- `QueryCache.get`: hash the prompt, look the key up; a live entry
(age strictly below ttl) is a hit and is returned; an expired entry is
deleted and the call falls through to the miss path; a missing key is a
miss. -/
def cacheGet (genKey : List Char → List Char) (c : CacheState)
    (prompt : List Char) (now : Rat) : Option (List Char) × CacheState :=
  let key := genKey prompt
  match assocFind key c.entries with
  | some rv =>
    if now - rv.2 < (c.ttl : Rat) then
      (some rv.1, { c with hits := c.hits + 1 })
    else
      (none, { c with entries := assocErase key c.entries
                      misses := c.misses + 1 })
  | none => (none, { c with misses := c.misses + 1 })

/-- `QueryCache.set`: store the response under the prompt's key with the
current timestamp, overwriting any prior entry for that key. -/
def cacheSet (genKey : List Char → List Char) (c : CacheState)
    (prompt response : List Char) (now : Rat) : CacheState :=
  { c with entries := assocUpsert (genKey prompt) (response, now) c.entries }

/-! ## SQL validator (`nl2sql/validator.py`, function `validate_sql`)

The sqlglot parse and the `db_manager.get_schema_info()` introspection are
external collaborators, passed in as the `parse` function and the
`schemaCall` result. A raised introspection exception is `Except.error`. -/

/-- Python `\w` word character (ASCII range, as exercised by the
keyword denylist): letters, digits, underscore. -/
def isWordChar (c : Char) : Bool :=
  (65 ≤ c.toNat ∧ c.toNat ≤ 90) || (97 ≤ c.toNat ∧ c.toNat ≤ 122) ||
    (48 ≤ c.toNat ∧ c.toNat ≤ 57) || c = '_'

/-- The whitespace set of Python `str.strip()`. -/
def isPySpace (c : Char) : Bool :=
  c = ' ' || c = '\t' || c = '\n' || c = '\x0d' || c = '\x0b' || c = '\x0c'

/-- Python `str.strip()`: drop leading and trailing whitespace. -/
def stripPy (s : List Char) : List Char :=
  ((s.dropWhile isPySpace).reverse.dropWhile isPySpace).reverse

/-- Python `str.upper()` on the ASCII range. -/
def upperPy (s : List Char) : List Char :=
  s.map Char.toUpper

/-- Does `kw` match at the current position, with a word boundary after
it: `kw` is a leading run of the text and the next character, when there
is one, is not a word character. -/
def matchKwHere : List Char → List Char → Bool
  | [], [] => true
  | [], c :: _ => !(isWordChar c)
  | _ :: _, [] => false
  | k :: ks, c :: cs => k = c && matchKwHere ks cs

/-- Is the character before the current position (if any) a word-boundary
maker, i.e. absent or not a word character. -/
def boundaryOk : Option Char → Bool
  | none => true
  | some c => !(isWordChar c)

/-- Scan of `re.search(r'\b<kw>\b', text)` for an all-word-character
`kw`: some position has a word boundary before it and matches `kw` with a
word boundary after it. `prev` is the character just before the current
position. -/
def searchWordFrom (kw : List Char) : Option Char → List Char → Bool
  | prev, [] => boundaryOk prev && matchKwHere kw []
  | prev, c :: cs =>
    (boundaryOk prev && matchKwHere kw (c :: cs)) || searchWordFrom kw (some c) cs

/-- `re.search(r'\b<kw>\b', text)` from the start of the text. -/
def searchWord (kw text : List Char) : Bool :=
  searchWordFrom kw none text

/-- The `UNSAFE_KEYWORDS` denylist, in source order. -/
def UNSAFE_KEYWORDS : List (List Char) :=
  ["DROP".toList, "DELETE".toList, "UPDATE".toList, "INSERT".toList,
   "TRUNCATE".toList, "ALTER".toList, "CREATE".toList, "REPLACE".toList,
   "GRANT".toList, "REVOKE".toList]

/-- The `for keyword in UNSAFE_KEYWORDS` loop: first keyword of the
denylist found in the uppercased query as a whole word, if any. -/
def findUnsafe (sqlUpper : List Char) : Option (List Char) :=
  UNSAFE_KEYWORDS.find? (fun kw => searchWord kw sqlUpper)

/-- Structured result of `sqlglot.parse_one`, restricted to what
`validate_sql` reads from it: the referenced table names, and the column
references with their optional table qualifier. Names are as produced by
the external library, before the `.lower()` calls the validator applies. -/
structure ParsedQuery where
  tables : List (List Char)
  columns : List (Option (List Char) × List Char)
  deriving Repr, DecidableEq

/-- A schema catalog: table name to list of column names (the validator
only reads `col['name']` of each column descriptor). -/
def Schema := List (List Char × List (List Char))

/-- Python `str.lower()` on the ASCII range. -/
def lowerPy (s : List Char) : List Char :=
  s.map Char.toLower

/-- Deduplicating accumulation of the `tables_in_query` set, in first
occurrence order. -/
def dedup : List (List Char) → List (List Char)
  | [] => []
  | t :: ts => if t ∈ ts then dedup ts else t :: dedup ts

/-- The table-existence loop of stage 3: first table of the query not in
the allowed list, if any. -/
def findMissingTable (tablesInQuery allowed : List (List Char)) :
    Option (List Char) :=
  tablesInQuery.find? (fun t => !(allowed.contains t))

/-- The column-existence loop of stage 3: first qualified column whose
table is in the schema but whose name is not among that table's columns. -/
def findMissingColumn (schemaInfo : Schema)
    (columns : List (Option (List Char) × List Char)) :
    Option (List Char × List Char) :=
  (columns.filterMap (fun tc =>
      let columnName := lowerPy tc.2
      if columnName = "*".toList then none
      else
        match tc.1 with
        | none => none
        | some tRaw =>
          let tableName := lowerPy tRaw
          match (schemaInfo.lookup tableName) with
          | none => none
          | some cols =>
            if (cols.map lowerPy).contains columnName then none
            else some (columnName, tableName))).head?

/-- Stage 3 of `validate_sql` (the `try` block around schema validation):
when the introspection call raises, the exception is swallowed and the
stage passes (`none`); otherwise an unknown table or a missing qualified
column makes the statement invalid with the corresponding message. -/
def schemaStage (schemaCall : Except Unit Schema) (parsed : ParsedQuery)
    (allowedTables : Option (List (List Char))) : Option (List Char) :=
  match schemaCall with
  | Except.error _ => none
  | Except.ok schemaInfo =>
    let allowed := allowedTables.getD (schemaInfo.map Prod.fst)
    let tablesInQuery := dedup (parsed.tables.map lowerPy)
    match findMissingTable tablesInQuery allowed with
    | some t =>
      some ("Table '".toList ++ t ++ "' does not exist in schema".toList)
    | none =>
      match findMissingColumn schemaInfo parsed.columns with
      | some ct =>
        some ("Column '".toList ++ ct.1 ++ "' does not exist in table '".toList
          ++ ct.2 ++ "'".toList)
      | none => none

/-- Python `';' in sql_query[:-1]`: a semicolon strictly before the last
character. -/
def semicolonBeforeEnd (s : List Char) : Bool :=
  s.dropLast.contains ';'

/-- The invalidity message of the safety stage for keyword `kw`. -/
def unsafeMsg (kw : List Char) : List Char :=
  "Unsafe operation detected: ".toList ++ kw ++ " is not allowed".toList

/-- Does `kw` occur in `s` as a case-insensitive whole word: the denylist
search the validator performs, applied to the uppercased raw text. -/
def containsWordCI (kw s : List Char) : Bool :=
  searchWord kw (upperPy s)

/-- `validate_sql(sql_query, allowed_tables)`: emptiness check, unsafe
keyword denylist on the uppercased stripped query, sqlglot parse, schema
stage, multiple-statement check; first failing stage decides. -/
def validateSql (parse : List Char → Except (List Char) (Option ParsedQuery))
    (schemaCall : Except Unit Schema) (sqlQuery : List Char)
    (allowedTables : Option (List (List Char))) : Bool × List Char :=
  if stripPy sqlQuery = [] then (false, "Empty query provided".toList)
  else
    let sqlQuery := stripPy sqlQuery
    let sqlUpper := upperPy sqlQuery
    match findUnsafe sqlUpper with
    | some kw => (false, unsafeMsg kw)
    | none =>
      match parse sqlQuery with
      | Except.error e => (false, "Syntax error: ".toList ++ e)
      | Except.ok none => (false, "Failed to parse SQL query".toList)
      | Except.ok (some parsed) =>
        match schemaStage schemaCall parsed allowedTables with
        | some msg => (false, msg)
        | none =>
          if semicolonBeforeEnd sqlQuery then
            (false, "Multiple statements not allowed".toList)
          else (true, "Query is valid".toList)

/-- A concrete query used to probe the validator's dependence on the
schema-introspection collaborator. -/
def probeSql : List Char := "SELECT t.bogus FROM t".toList

/-- The sqlglot parse of `probeSql`: one table `t`, one column `bogus`
qualified by `t`. For any other input this collaborator reports an empty
parse. -/
def probeParse : List Char → Except (List Char) (Option ParsedQuery) :=
  fun q =>
    if q = probeSql then
      Except.ok (some { tables := ["t".toList]
                        columns := [(some "t".toList, "bogus".toList)] })
    else Except.ok none

/-- A schema-introspection response that knows table `t` with single
column `a`. -/
def probeSchema : Schema := [("t".toList, ["a".toList])]

/-! ## Limiter lemmas -/

theorem refillMinute_noop (s : LimiterState) (now : Rat)
    (hm : now - s.minuteLastRefill < 60) : refillMinute s now = s := by
  unfold refillMinute
  rw [if_neg (not_le.mpr hm)]

theorem refillDay_noop (s : LimiterState) (now : Rat)
    (hd : now - s.dayLastRefill < 86400) : refillDay s now = s := by
  unfold refillDay
  rw [if_neg (not_le.mpr hd)]

theorem refillTokens_noop (s : LimiterState) (now : Rat)
    (hm : now - s.minuteLastRefill < 60) (hd : now - s.dayLastRefill < 86400) :
    refillTokens s now = s := by
  unfold refillTokens
  rw [refillMinute_noop s now hm, refillDay_noop s now hd]

theorem acquireStep_granted_of (b : Bool) (s : LimiterState) (now : Rat)
    (hm : now - s.minuteLastRefill < 60) (hd : now - s.dayLastRefill < 86400)
    (hmt : 0 < s.minuteTokens) (hdt : 0 < s.dayTokens) :
    acquireStep b s now =
      (AcquireOutcome.granted,
        { s with minuteTokens := s.minuteTokens - 1
                 dayTokens := s.dayTokens - 1
                 totalRequests := s.totalRequests + 1 }) := by
  unfold acquireStep
  rw [refillTokens_noop s now hm hd, if_pos ⟨hmt, hdt⟩]

theorem acquireStep_denied_of (s : LimiterState) (now : Rat)
    (hm : now - s.minuteLastRefill < 60) (hd : now - s.dayLastRefill < 86400)
    (h : ¬(0 < s.minuteTokens ∧ 0 < s.dayTokens)) :
    acquireStep false s now =
      (AcquireOutcome.denied, { s with totalBlocked := s.totalBlocked + 1 }) := by
  unfold acquireStep
  rw [refillTokens_noop s now hm hd, if_neg h]
  rfl

/-! ## Claim theorems: rate limiter -/

/-- C1: the spec says `getStats()` always terminates with the full
statistics record and never hangs the calling request. The code does not:
`get_stats` holds the limiter's non-reentrant `threading.Lock` while it
evaluates `self.get_wait_time()`, which tries to acquire the same lock, so
every `get_stats()` call deadlocks and never produces the record. -/
theorem getStats_never_returns (held : Bool) (s : LimiterState) (now : Rat) :
    getStats held s now = none := by
  cases held <;> simp [getStats, getWaitTimeLocked]

/-- C3: for a fresh limiter with `rpm=3, rpd=10`, and no window boundary
elapsing between the calls, three consecutive non-blocking `acquire()`
calls return true, a fourth returns false, after which `totalBlocked = 1`
and `totalRequests = 3`. -/
theorem limiter_exact_admission (t0 u1 u2 u3 u4 : Rat)
    (h1 : u1 - t0 < 60) (h2 : u2 - t0 < 60) (h3 : u3 - t0 < 60)
    (h4 : u4 - t0 < 60) :
    (acquireSeq (initLimiter 3 10 t0) [u1, u2, u3, u4]).1 =
        [true, true, true, false] ∧
      (acquireSeq (initLimiter 3 10 t0) [u1, u2, u3, u4]).2.totalBlocked = 1 ∧
      (acquireSeq (initLimiter 3 10 t0) [u1, u2, u3, u4]).2.totalRequests = 3 := by
  have hd1 : u1 - t0 < 86400 := by linarith
  have hd2 : u2 - t0 < 86400 := by linarith
  have hd3 : u3 - t0 < 86400 := by linarith
  have hd4 : u4 - t0 < 86400 := by linarith
  have e1 : acquireStep false (initLimiter 3 10 t0) u1 =
      (AcquireOutcome.granted, ⟨3, 10, 2, t0, 9, t0, 1, 0⟩) := by
    rw [acquireStep_granted_of false (initLimiter 3 10 t0) u1 h1 hd1
      (by norm_num [initLimiter]) (by norm_num [initLimiter])]
    norm_num [initLimiter]
  have e2 : acquireStep false ⟨3, 10, 2, t0, 9, t0, 1, 0⟩ u2 =
      (AcquireOutcome.granted, ⟨3, 10, 1, t0, 8, t0, 2, 0⟩) := by
    rw [acquireStep_granted_of false ⟨3, 10, 2, t0, 9, t0, 1, 0⟩ u2 h2 hd2
      (by norm_num) (by norm_num)]
    norm_num
  have e3 : acquireStep false ⟨3, 10, 1, t0, 8, t0, 2, 0⟩ u3 =
      (AcquireOutcome.granted, ⟨3, 10, 0, t0, 7, t0, 3, 0⟩) := by
    rw [acquireStep_granted_of false ⟨3, 10, 1, t0, 8, t0, 2, 0⟩ u3 h3 hd3
      (by norm_num) (by norm_num)]
    norm_num
  have e4 : acquireStep false ⟨3, 10, 0, t0, 7, t0, 3, 0⟩ u4 =
      (AcquireOutcome.denied, ⟨3, 10, 0, t0, 7, t0, 3, 1⟩) := by
    rw [acquireStep_denied_of ⟨3, 10, 0, t0, 7, t0, 3, 0⟩ u4 h4 hd4
      (by norm_num)]
    norm_num
  simp [acquireSeq, acquireNonBlocking, e1, e2, e3, e4]

/-- Witness for C3 at a concrete clock. -/
theorem limiter_exact_admission_witness :
    (acquireSeq (initLimiter 3 10 0) [0, 0, 0, 0]).1 =
        [true, true, true, false] ∧
      (acquireSeq (initLimiter 3 10 0) [0, 0, 0, 0]).2.totalBlocked = 1 ∧
      (acquireSeq (initLimiter 3 10 0) [0, 0, 0, 0]).2.totalRequests = 3 :=
  limiter_exact_admission 0 0 0 0 0 (by norm_num) (by norm_num) (by norm_num)
    (by norm_num)

theorem refillMinute_inv (s : LimiterState) (now : Rat) (h : LimiterInv s) :
    LimiterInv (refillMinute s now) := by
  obtain ⟨a, b, c, d⟩ := h
  unfold refillMinute LimiterInv
  split
  · exact ⟨by simp; omega, by simp, by simpa using c, by simpa using d⟩
  · exact ⟨a, b, c, d⟩

theorem refillDay_inv (s : LimiterState) (now : Rat) (h : LimiterInv s) :
    LimiterInv (refillDay s now) := by
  obtain ⟨a, b, c, d⟩ := h
  unfold refillDay LimiterInv
  split
  · exact ⟨by simpa using a, by simpa using b, by simp; omega, by simp⟩
  · exact ⟨a, b, c, d⟩

theorem refillTokens_inv (s : LimiterState) (now : Rat) (h : LimiterInv s) :
    LimiterInv (refillTokens s now) :=
  refillDay_inv _ _ (refillMinute_inv _ _ h)

/-- Case analysis of one `acquire` critical section, relative to the
refreshed state. -/
theorem acquireStep_cases (b : Bool) (s : LimiterState) (now : Rat) :
    (0 < (refillTokens s now).minuteTokens ∧ 0 < (refillTokens s now).dayTokens ∧
      acquireStep b s now =
        (AcquireOutcome.granted,
          { refillTokens s now with
              minuteTokens := (refillTokens s now).minuteTokens - 1
              dayTokens := (refillTokens s now).dayTokens - 1
              totalRequests := (refillTokens s now).totalRequests + 1 })) ∨
    (¬(0 < (refillTokens s now).minuteTokens ∧ 0 < (refillTokens s now).dayTokens) ∧
      acquireStep b s now =
        ((if b then AcquireOutcome.retry else AcquireOutcome.denied),
          { refillTokens s now with
              totalBlocked := (refillTokens s now).totalBlocked + 1 })) := by
  by_cases hc : 0 < (refillTokens s now).minuteTokens ∧ 0 < (refillTokens s now).dayTokens
  · refine Or.inl ⟨hc.1, hc.2, ?_⟩
    simp only [acquireStep]
    rw [if_pos hc]
  · refine Or.inr ⟨hc, ?_⟩
    simp only [acquireStep]
    rw [if_neg hc]
    cases b <;> rfl

theorem getWaitTimeCore_state (s : LimiterState) (now : Rat) :
    (getWaitTimeCore s now).2 = refillTokens s now := by
  simp only [getWaitTimeCore]
  split_ifs <;> rfl

/-- C4: every limiter operation preserves the token-range invariant
`0 ≤ tokens ≤ limit` for both windows, and a single `acquire` critical
section, relative to the state with both windows refreshed, either
decrements both token counts by exactly one (admission) or leaves both
unchanged (denial) — never exactly one of the two. The state visible from
`getStats` before it deadlocks is the refreshed state, covered by the
first conjunct. -/
theorem limiter_invariant_atomicity (b : Bool) (s : LimiterState) (now : Rat)
    (h : LimiterInv s) :
    LimiterInv (refillTokens s now) ∧
    LimiterInv (acquireStep b s now).2 ∧
    LimiterInv (getWaitTimeCore s now).2 ∧
    LimiterInv (resetLimiter s now) ∧
    ((acquireStep b s now).1 = AcquireOutcome.granted ∧
        (acquireStep b s now).2.minuteTokens = (refillTokens s now).minuteTokens - 1 ∧
        (acquireStep b s now).2.dayTokens = (refillTokens s now).dayTokens - 1 ∨
      (acquireStep b s now).1 ≠ AcquireOutcome.granted ∧
        (acquireStep b s now).2.minuteTokens = (refillTokens s now).minuteTokens ∧
        (acquireStep b s now).2.dayTokens = (refillTokens s now).dayTokens) := by
  have hr := refillTokens_inv s now h
  obtain ⟨r1, r2, r3, r4⟩ := hr
  have hreset : LimiterInv (resetLimiter s now) := by
    obtain ⟨a, b2, c, d⟩ := h
    unfold resetLimiter LimiterInv
    exact ⟨by simp; omega, by simp, by simp; omega, by simp⟩
  rcases acquireStep_cases b s now with ⟨hm, hd, heq⟩ | ⟨hc, heq⟩
  · refine ⟨⟨r1, r2, r3, r4⟩, ?_, ?_, hreset, Or.inl ⟨by rw [heq], ?_, ?_⟩⟩
    · rw [heq]
      exact ⟨by simp; omega, by simp; omega, by simp; omega, by simp; omega⟩
    · rw [getWaitTimeCore_state]; exact ⟨r1, r2, r3, r4⟩
    · rw [heq]
    · rw [heq]
  · refine ⟨⟨r1, r2, r3, r4⟩, ?_, ?_, hreset, Or.inr ⟨?_, by rw [heq], by rw [heq]⟩⟩
    · rw [heq]
      exact ⟨by simpa using r1, by simpa using r2, by simpa using r3,
        by simpa using r4⟩
    · rw [getWaitTimeCore_state]; exact ⟨r1, r2, r3, r4⟩
    · rw [heq]
      cases b <;> simp

/-- Witness for C4 at a concrete state. -/
theorem limiter_invariant_atomicity_witness :
    LimiterInv (initLimiter 10 1500 0) ∧
      (LimiterInv (refillTokens (initLimiter 10 1500 0) 0) ∧
        LimiterInv (acquireStep false (initLimiter 10 1500 0) 0).2 ∧
        LimiterInv (getWaitTimeCore (initLimiter 10 1500 0) 0).2 ∧
        LimiterInv (resetLimiter (initLimiter 10 1500 0) 0) ∧
        ((acquireStep false (initLimiter 10 1500 0) 0).1 = AcquireOutcome.granted ∧
            (acquireStep false (initLimiter 10 1500 0) 0).2.minuteTokens =
              (refillTokens (initLimiter 10 1500 0) 0).minuteTokens - 1 ∧
            (acquireStep false (initLimiter 10 1500 0) 0).2.dayTokens =
              (refillTokens (initLimiter 10 1500 0) 0).dayTokens - 1 ∨
          (acquireStep false (initLimiter 10 1500 0) 0).1 ≠ AcquireOutcome.granted ∧
            (acquireStep false (initLimiter 10 1500 0) 0).2.minuteTokens =
              (refillTokens (initLimiter 10 1500 0) 0).minuteTokens ∧
            (acquireStep false (initLimiter 10 1500 0) 0).2.dayTokens =
              (refillTokens (initLimiter 10 1500 0) 0).dayTokens)) :=
  ⟨by decide, limiter_invariant_atomicity false (initLimiter 10 1500 0) 0 (by decide)⟩

/-- C2 (amended): after refreshing both windows, `getWaitTime` returns 0
when both windows have tokens; when the minute window is exhausted
(including a simultaneous exhaustion of both, the minute window being
checked first) it returns the clamped time remaining until the minute
window resets; when only the day window is exhausted it returns the
clamped time remaining until the day window resets. -/
theorem getWaitTime_spec (s : LimiterState) (now : Rat) :
    (0 < (refillTokens s now).minuteTokens → 0 < (refillTokens s now).dayTokens →
      (getWaitTimeCore s now).1 = 0) ∧
    ((refillTokens s now).minuteTokens ≤ 0 →
      (getWaitTimeCore s now).1 =
        max 0 (60 - (now - (refillTokens s now).minuteLastRefill))) ∧
    (0 < (refillTokens s now).minuteTokens → (refillTokens s now).dayTokens ≤ 0 →
      (getWaitTimeCore s now).1 =
        max 0 (86400 - (now - (refillTokens s now).dayLastRefill))) := by
  simp only [getWaitTimeCore]
  refine ⟨fun hm hd => ?_, fun hm => ?_, fun hm hd => ?_⟩
  · rw [if_pos ⟨hm, hd⟩]
  · rw [if_neg (fun hc => absurd hc.1 (by omega)), if_pos hm]
  · rw [if_neg (fun hc => absurd hc.2 (by omega)), if_neg (by omega)]

/-- Witness for C2 at a concrete exhausted-minute state. -/
theorem getWaitTime_spec_witness :
    (getWaitTimeCore (acquireStep false (initLimiter 1 5 0) 0).2 30).1 =
      max 0 (60 - ((30 : Rat) -
        (refillTokens (acquireStep false (initLimiter 1 5 0) 0).2 30).minuteLastRefill)) := by
  refine (getWaitTime_spec (acquireStep false (initLimiter 1 5 0) 0).2 30).2.1 ?_
  have e1 : acquireStep false (initLimiter 1 5 0) 0 =
      (AcquireOutcome.granted, ⟨1, 5, 0, 0, 4, 0, 1, 0⟩) := by
    rw [acquireStep_granted_of false (initLimiter 1 5 0) 0
      (by norm_num [initLimiter]) (by norm_num [initLimiter])
      (by norm_num [initLimiter]) (by norm_num [initLimiter])]
    norm_num [initLimiter]
  rw [e1]
  rw [refillTokens_noop ⟨1, 5, 0, 0, 4, 0, 1, 0⟩ 30 (by norm_num) (by norm_num)]

/-- C2 counterexample: a reachable state in which both windows are
simultaneously exhausted and the minute wait reported by `getWaitTime`
(59 seconds) exceeds the remaining time until the day window resets
(4 seconds): construct a limiter with `rpm=1, rpd=2` at time 0, admit at
time 0 and at time 86395, then query at time 86396. -/
theorem getWaitTime_tiebreak_cex :
    (refillTokens (acquireStep false (acquireStep false (initLimiter 1 2 0) 0).2
        86395).2 86396).minuteTokens = 0 ∧
    (refillTokens (acquireStep false (acquireStep false (initLimiter 1 2 0) 0).2
        86395).2 86396).dayTokens = 0 ∧
    (getWaitTimeCore (acquireStep false (acquireStep false (initLimiter 1 2 0) 0).2
        86395).2 86396).1 = 59 ∧
    86400 - (86396 - (refillTokens (acquireStep false (acquireStep false
        (initLimiter 1 2 0) 0).2 86395).2 86396).dayLastRefill) = 4 ∧
    ¬((getWaitTimeCore (acquireStep false (acquireStep false (initLimiter 1 2 0) 0).2
          86395).2 86396).1 ≤
        86400 - (86396 - (refillTokens (acquireStep false (acquireStep false
            (initLimiter 1 2 0) 0).2 86395).2 86396).dayLastRefill)) := by
  have e1 : acquireStep false (initLimiter 1 2 0) 0 =
      (AcquireOutcome.granted, ⟨1, 2, 0, 0, 1, 0, 1, 0⟩) := by
    rw [acquireStep_granted_of false (initLimiter 1 2 0) 0
      (by norm_num [initLimiter]) (by norm_num [initLimiter])
      (by norm_num [initLimiter]) (by norm_num [initLimiter])]
    norm_num [initLimiter]
  have em : refillMinute ⟨1, 2, 0, 0, 1, 0, 1, 0⟩ 86395 =
      ⟨1, 2, 1, 86395, 1, 0, 1, 0⟩ := by
    unfold refillMinute
    rw [if_pos (by norm_num)]
  have er : refillTokens ⟨1, 2, 0, 0, 1, 0, 1, 0⟩ 86395 =
      ⟨1, 2, 1, 86395, 1, 0, 1, 0⟩ := by
    unfold refillTokens
    rw [em, refillDay_noop ⟨1, 2, 1, 86395, 1, 0, 1, 0⟩ 86395 (by norm_num)]
  have e2 : acquireStep false ⟨1, 2, 0, 0, 1, 0, 1, 0⟩ 86395 =
      (AcquireOutcome.granted, ⟨1, 2, 0, 86395, 0, 0, 2, 0⟩) := by
    simp only [acquireStep, er]
    rw [if_pos (by norm_num)]
    norm_num
  have er2 : refillTokens ⟨1, 2, 0, 86395, 0, 0, 2, 0⟩ 86396 =
      ⟨1, 2, 0, 86395, 0, 0, 2, 0⟩ :=
    refillTokens_noop _ _ (by norm_num) (by norm_num)
  have ew : (getWaitTimeCore ⟨1, 2, 0, 86395, 0, 0, 2, 0⟩ 86396).1 = 59 := by
    simp only [getWaitTimeCore, er2]
    rw [if_neg (by norm_num), if_pos (by norm_num)]
    rw [max_eq_right (by norm_num)]
    norm_num
  simp only [e1]
  simp only [e2]
  simp only [er2, ew]
  norm_num

theorem acquireStep_not_denied_blocking (s : LimiterState) (now : Rat) :
    (acquireStep true s now).1 ≠ AcquireOutcome.denied := by
  rcases acquireStep_cases true s now with ⟨_, _, heq⟩ | ⟨_, heq⟩ <;>
    rw [heq] <;> simp

theorem refillTokens_rpm (s : LimiterState) (now : Rat) :
    (refillTokens s now).rpmLimit = s.rpmLimit := by
  unfold refillTokens refillDay refillMinute
  split_ifs <;> rfl

theorem refillTokens_minute_exhausted (s : LimiterState) (now : Rat)
    (hL : s.rpmLimit ≤ 0) (hT : s.minuteTokens ≤ 0) :
    (refillTokens s now).minuteTokens ≤ 0 := by
  unfold refillTokens refillDay refillMinute
  split_ifs <;> simpa

/-- Under an unsatisfiable minute window (`rpm_limit ≤ 0` with the window
already empty), one `acquire` pass never admits and preserves the
exhaustion. -/
theorem acquireStep_exhausted (b : Bool) (s : LimiterState) (now : Rat)
    (hL : s.rpmLimit ≤ 0) (hT : s.minuteTokens ≤ 0) :
    (acquireStep b s now).1 = (if b then AcquireOutcome.retry
        else AcquireOutcome.denied) ∧
      (acquireStep b s now).2.rpmLimit ≤ 0 ∧
      (acquireStep b s now).2.minuteTokens ≤ 0 := by
  have hmt := refillTokens_minute_exhausted s now hL hT
  have hrpm := refillTokens_rpm s now
  rcases acquireStep_cases b s now with ⟨hm, _, _⟩ | ⟨_, heq⟩
  · omega
  · rw [heq]
    exact ⟨rfl, by simpa [hrpm] using hL, by simpa using hmt⟩

/-- C10: with `blocking=True` and no timeout, `acquire` never returns
`False`: every pass either admits or sleeps and retries; and when the
minute window can never admit (zero configured limit), the loop runs
forever, never returning at all. -/
theorem blocking_acquire_no_timeout (startTime : Rat) (times : Nat → Rat)
    (fuel n : Nat) (s : LimiterState) :
    (acquireLoop true none startTime times fuel n s).1 ≠ some false ∧
      (s.rpmLimit ≤ 0 → s.minuteTokens ≤ 0 →
        (acquireLoop true none startTime times fuel n s).1 = none) := by
  induction fuel generalizing n s with
  | zero => exact ⟨by simp [acquireLoop], fun _ _ => by simp [acquireLoop]⟩
  | succ fuel ih =>
    constructor
    · cases hout : (acquireStep true s (times (2 * n))).1 with
      | granted => simp [acquireLoop, hout]
      | denied => exact absurd hout (acquireStep_not_denied_blocking _ _)
      | retry =>
        simp only [acquireLoop, hout]
        exact (ih (n + 1) _).1
    · intro hL hT
      have hstep := acquireStep_exhausted true s (times (2 * n)) hL hT
      simp only [acquireLoop, hstep.1, if_pos]
      exact (ih (n + 1) _).2 hstep.2.1 hstep.2.2

/-- Witness for C10 at a concrete zero-limit limiter. -/
theorem blocking_acquire_no_timeout_witness :
    (acquireLoop true none 0 (fun _ => 0) 5 0 (initLimiter 0 5 0)).1 ≠ some false ∧
      (acquireLoop true none 0 (fun _ => 0) 5 0 (initLimiter 0 5 0)).1 = none :=
  ⟨(blocking_acquire_no_timeout 0 (fun _ => 0) 5 0 (initLimiter 0 5 0)).1,
    (blocking_acquire_no_timeout 0 (fun _ => 0) 5 0 (initLimiter 0 5 0)).2
      (by decide) (by decide)⟩

/-! ## Claim theorems: query cache -/

theorem assocFind_erase (key : List Char)
    (l : List (List Char × (List Char × Rat))) :
    assocFind key (assocErase key l) = none := by
  induction l with
  | nil => rfl
  | cons kv rest ih =>
    obtain ⟨k, v⟩ := kv
    unfold assocErase
    by_cases hk : k = key
    · rw [if_pos hk]
      exact ih
    · rw [if_neg hk]
      unfold assocFind
      rw [if_neg hk]
      exact ih

theorem assocFind_upsert (key : List Char) (v : List Char × Rat)
    (l : List (List Char × (List Char × Rat))) :
    assocFind key (assocUpsert key v l) = some v := by
  unfold assocUpsert assocFind
  rw [if_pos rfl]

/-- C6: `get` never returns a stored response whose age `now − insertedAt`
has reached the ttl; an expired entry is deleted, the miss counter is
incremented and the call misses; a live entry is returned and the hit
counter is incremented. -/
theorem cacheGet_ttl (genKey : List Char → List Char) (c : CacheState)
    (prompt : List Char) (now : Rat) :
    (∀ resp, (cacheGet genKey c prompt now).1 = some resp →
      ∃ ts, assocFind (genKey prompt) c.entries = some (resp, ts) ∧
        now - ts < (c.ttl : Rat)) ∧
    (∀ resp ts, assocFind (genKey prompt) c.entries = some (resp, ts) →
      (c.ttl : Rat) ≤ now - ts →
      (cacheGet genKey c prompt now).1 = none ∧
        assocFind (genKey prompt) (cacheGet genKey c prompt now).2.entries = none ∧
        (cacheGet genKey c prompt now).2.misses = c.misses + 1) ∧
    (∀ resp ts, assocFind (genKey prompt) c.entries = some (resp, ts) →
      now - ts < (c.ttl : Rat) →
      (cacheGet genKey c prompt now).1 = some resp ∧
        (cacheGet genKey c prompt now).2.hits = c.hits + 1) := by
  cases hf : assocFind (genKey prompt) c.entries with
  | none =>
    refine ⟨fun resp h => ?_, fun resp ts h _ => ?_, fun resp ts h _ => ?_⟩
    · simp only [cacheGet, hf] at h
      exact absurd h (by simp)
    · exact absurd h (by simp)
    · exact absurd h (by simp)
  | some rv =>
    obtain ⟨rvr, rvt⟩ := rv
    by_cases htl : now - rvt < (c.ttl : Rat)
    · refine ⟨fun resp h => ?_, fun resp ts h hexp => ?_,
        fun resp ts h hlive => ?_⟩
      · simp only [cacheGet, hf, if_pos htl] at h
        injection h with h
        refine ⟨rvt, ?_, htl⟩
        rw [h]
      · injection h with h
        injection h with h1 h2
        rw [← h2] at hexp
        exact absurd htl (not_lt.mpr hexp)
      · injection h with h
        injection h with h1 h2
        simp only [cacheGet, hf, if_pos htl]
        exact ⟨by rw [h1], trivial⟩
    · refine ⟨fun resp h => ?_, fun resp ts h hexp => ?_,
        fun resp ts h hlive => ?_⟩
      · simp only [cacheGet, hf, if_neg htl] at h
        exact absurd h (by simp)
      · simp only [cacheGet, hf, if_neg htl]
        exact ⟨trivial, assocFind_erase (genKey prompt) c.entries, trivial⟩
      · injection h with h
        injection h with h1 h2
        rw [← h2] at hlive
        exact absurd hlive htl

/-- Witness for C6 at a concrete expired entry. -/
theorem cacheGet_ttl_witness :
    (cacheGet (fun s => s) ⟨5, [("k".toList, ("v".toList, 0))], 0, 0⟩
        "k".toList 10).1 = none ∧
      assocFind "k".toList
        (cacheGet (fun s => s) ⟨5, [("k".toList, ("v".toList, 0))], 0, 0⟩
          "k".toList 10).2.entries = none ∧
      (cacheGet (fun s => s) ⟨5, [("k".toList, ("v".toList, 0))], 0, 0⟩
        "k".toList 10).2.misses = 0 + 1 :=
  (cacheGet_ttl (fun s => s) ⟨5, [("k".toList, ("v".toList, 0))], 0, 0⟩
    "k".toList 10).2.1 "v".toList 0 (by decide) (by norm_num)

/-- C9: on a cache with positive ttl, `set(p, r)` immediately followed by
`get(p)` returns `r`, and the `set` left exactly `(r, now)` stored under
the prompt's key, overwriting any prior entry. -/
theorem cacheSet_get_roundtrip (genKey : List Char → List Char) (c : CacheState)
    (p r : List Char) (now : Rat) (h : 0 < c.ttl) :
    (cacheGet genKey (cacheSet genKey c p r now) p now).1 = some r ∧
      assocFind (genKey p) (cacheSet genKey c p r now).entries = some (r, now) := by
  have hf : assocFind (genKey p) (cacheSet genKey c p r now).entries =
      some (r, now) := by
    unfold cacheSet
    exact assocFind_upsert _ _ _
  refine ⟨?_, hf⟩
  have httl : (cacheSet genKey c p r now).ttl = c.ttl := rfl
  simp only [cacheGet, hf]
  rw [if_pos (by rw [httl, sub_self]; exact_mod_cast h)]

/-- Witness for C9 at a concrete cache with a prior entry for the key. -/
theorem cacheSet_get_roundtrip_witness :
    (cacheGet (fun s => s)
        (cacheSet (fun s => s) ⟨3600, [("p".toList, ("old".toList, 1))], 0, 0⟩
          "p".toList "r".toList 2) "p".toList 2).1 = some "r".toList ∧
      assocFind "p".toList
        (cacheSet (fun s => s) ⟨3600, [("p".toList, ("old".toList, 1))], 0, 0⟩
          "p".toList "r".toList 2).entries = some ("r".toList, 2) :=
  cacheSet_get_roundtrip (fun s => s) ⟨3600, [("p".toList, ("old".toList, 1))], 0, 0⟩
    "p".toList "r".toList 2 (by decide)

/-! ## Validator lemmas: characters -/

theorem toNat_ofNat_valid (n : Nat) (h : n < 55296) : (Char.ofNat n).toNat = n := by
  rw [Char.ofNat, dif_pos (Or.inl h)]
  rfl

theorem toNat_le_of_pySpace (c : Char) (h : isPySpace c = true) : c.toNat ≤ 32 := by
  unfold isPySpace at h
  simp only [Bool.or_eq_true, decide_eq_true_eq] at h
  rcases h with ((((h | h) | h) | h) | h) | h <;> subst h <;> decide

theorem toNat_ge_of_wordChar (c : Char) (h : isWordChar c = true) :
    48 ≤ c.toNat := by
  unfold isWordChar at h
  simp only [Bool.or_eq_true, decide_eq_true_eq] at h
  rcases h with ((h | h) | h) | h
  · omega
  · omega
  · omega
  · subst h; decide

theorem word_ne_space (k c : Char) (hk : isWordChar k = true)
    (hc : isPySpace c = true) : k ≠ c := by
  intro e
  subst e
  have h1 := toNat_ge_of_wordChar k hk
  have h2 := toNat_le_of_pySpace k hc
  omega

theorem wordChar_false_of_pySpace (c : Char) (h : isPySpace c = true) :
    isWordChar c = false := by
  have h1 := toNat_le_of_pySpace c h
  unfold isWordChar
  have hu : c ≠ '_' := fun e => by subst e; revert h1; decide
  rw [decide_eq_false (by omega : ¬(65 ≤ c.toNat ∧ c.toNat ≤ 90)),
    decide_eq_false (by omega : ¬(97 ≤ c.toNat ∧ c.toNat ≤ 122)),
    decide_eq_false (by omega : ¬(48 ≤ c.toNat ∧ c.toNat ≤ 57)),
    decide_eq_false hu]
  rfl

theorem pySpace_false_of_toNat (c : Char) (h : 33 ≤ c.toNat) :
    isPySpace c = false := by
  unfold isPySpace
  have hne : ∀ d : Char, d.toNat ≤ 32 → c ≠ d := fun d hd e => by subst e; omega
  rw [decide_eq_false (hne ' ' (by decide)), decide_eq_false (hne '\t' (by decide)),
    decide_eq_false (hne '\n' (by decide)), decide_eq_false (hne '\x0d' (by decide)),
    decide_eq_false (hne '\x0b' (by decide)), decide_eq_false (hne '\x0c' (by decide))]
  rfl

theorem pySpace_toUpper (c : Char) : isPySpace (Char.toUpper c) = isPySpace c := by
  by_cases hc : 97 ≤ c.toNat ∧ c.toNat ≤ 122
  · have h1 : Char.toUpper c = Char.ofNat (c.toNat - 32) := by
      simp only [Char.toUpper]
      rw [if_pos hc]
    have h2 : (Char.toUpper c).toNat = c.toNat - 32 := by
      rw [h1, toNat_ofNat_valid _ (by omega)]
    rw [pySpace_false_of_toNat _ (by rw [h2]; omega),
      pySpace_false_of_toNat _ (by omega)]
  · have h1 : Char.toUpper c = c := by
      simp only [Char.toUpper]
      rw [if_neg hc]
    rw [h1]

theorem strip_upper_comm (s : List Char) :
    stripPy (upperPy s) = upperPy (stripPy s) := by
  have hp : (isPySpace ∘ Char.toUpper) = isPySpace := funext pySpace_toUpper
  unfold stripPy upperPy
  rw [List.dropWhile_map, hp, ← List.map_reverse, List.dropWhile_map, hp,
    ← List.map_reverse]

/-! ## Validator lemmas: word-boundary search and stripping -/

theorem matchKwHere_space_head (k c : Char) (ks cs : List Char)
    (hk : isWordChar k = true) (hc : isPySpace c = true) :
    matchKwHere (k :: ks) (c :: cs) = false := by
  unfold matchKwHere
  rw [decide_eq_false (word_ne_space k c hk hc)]
  rfl

theorem searchWordFrom_congr (kw : List Char) (p1 p2 : Option Char)
    (h : boundaryOk p1 = boundaryOk p2) (t : List Char) :
    searchWordFrom kw p1 t = searchWordFrom kw p2 t := by
  cases t <;> simp only [searchWordFrom, h]

theorem searchWord_dropSpaces (k : Char) (ks : List Char)
    (hk : isWordChar k = true) (u : List Char) :
    searchWord (k :: ks) (u.dropWhile isPySpace) = searchWord (k :: ks) u := by
  induction u with
  | nil => rfl
  | cons c cs ih =>
    by_cases hc : isPySpace c = true
    · rw [List.dropWhile_cons_of_pos hc, ih]
      unfold searchWord
      conv_rhs => rw [searchWordFrom]
      rw [matchKwHere_space_head k c ks cs hk hc]
      rw [searchWordFrom_congr (k :: ks) none (some c)
        (by simp [boundaryOk, wordChar_false_of_pySpace c hc]) cs]
      simp
    · rw [List.dropWhile_cons_of_neg hc]

theorem searchWordFrom_spaces_false (k : Char) (ks : List Char)
    (hk : isWordChar k = true) :
    ∀ w : List Char, (∀ x ∈ w, isPySpace x = true) → ∀ prev : Option Char,
      searchWordFrom (k :: ks) prev w = false := by
  intro w
  induction w with
  | nil =>
    intro _ prev
    simp [searchWordFrom, matchKwHere]
  | cons c cs ih =>
    intro hw prev
    have hc := hw c (List.mem_cons_self c cs)
    rw [searchWordFrom]
    rw [matchKwHere_space_head k c ks cs hk hc]
    rw [ih (fun x hx => hw x (List.mem_cons_of_mem c hx)) (some c)]
    simp

theorem matchKwHere_append_spaces :
    ∀ kw cs w : List Char, kw.all isWordChar = true →
      (∀ x ∈ w, isPySpace x = true) →
      matchKwHere kw (cs ++ w) = matchKwHere kw cs := by
  intro kw
  induction kw with
  | nil =>
    intro cs w _ hw
    cases cs with
    | nil =>
      cases w with
      | nil => rfl
      | cons c w2 =>
        have hc := hw c (List.mem_cons_self c w2)
        simp [matchKwHere, wordChar_false_of_pySpace c hc]
    | cons c cs2 => rfl
  | cons k ks ih =>
    intro cs w hkw hw
    simp only [List.all_cons, Bool.and_eq_true] at hkw
    cases cs with
    | nil =>
      cases w with
      | nil => rfl
      | cons c w2 =>
        have hc := hw c (List.mem_cons_self c w2)
        rw [List.nil_append, matchKwHere_space_head k c ks w2 hkw.1 hc]
        rfl
    | cons c cs2 =>
      simp only [List.cons_append, matchKwHere, List.append_eq]
      rw [ih cs2 w hkw.2 hw]

theorem searchWordFrom_append_spaces (k : Char) (ks : List Char)
    (hkw : (k :: ks).all isWordChar = true) :
    ∀ cs w : List Char, (∀ x ∈ w, isPySpace x = true) → ∀ prev : Option Char,
      searchWordFrom (k :: ks) prev (cs ++ w) = searchWordFrom (k :: ks) prev cs := by
  have hk : isWordChar k = true := by
    simp only [List.all_cons, Bool.and_eq_true] at hkw
    exact hkw.1
  intro cs
  induction cs with
  | nil =>
    intro w hw prev
    rw [List.nil_append, searchWordFrom_spaces_false k ks hk w hw prev]
    simp [searchWordFrom, matchKwHere]
  | cons c cs2 ih =>
    intro w hw prev
    simp only [List.cons_append, searchWordFrom, List.append_eq]
    rw [← List.cons_append, matchKwHere_append_spaces (k :: ks) (c :: cs2) w hkw hw,
      ih w hw (some c)]

theorem searchWord_strip (k : Char) (ks : List Char)
    (hkw : (k :: ks).all isWordChar = true) (s : List Char) :
    searchWord (k :: ks) (stripPy s) = searchWord (k :: ks) s := by
  have hk : isWordChar k = true := by
    simp only [List.all_cons, Bool.and_eq_true] at hkw
    exact hkw.1
  have hdecomp : ∀ v : List Char,
      v = (v.reverse.dropWhile isPySpace).reverse ++
        (v.reverse.takeWhile isPySpace).reverse := by
    intro v
    conv_lhs => rw [← List.reverse_reverse v,
      ← List.takeWhile_append_dropWhile isPySpace v.reverse]
    rw [List.reverse_append]
  have hspaces : ∀ x ∈ ((s.dropWhile isPySpace).reverse.takeWhile isPySpace).reverse,
      isPySpace x = true := by
    intro x hx
    rw [List.mem_reverse] at hx
    exact List.mem_takeWhile_imp hx
  have h3 := searchWordFrom_append_spaces k ks hkw
    ((s.dropWhile isPySpace).reverse.dropWhile isPySpace).reverse
    ((s.dropWhile isPySpace).reverse.takeWhile isPySpace).reverse hspaces none
  have h2 := searchWord_dropSpaces k ks hk s
  rw [← h2]
  conv_rhs => rw [hdecomp (s.dropWhile isPySpace)]
  exact h3.symm

/-! ## Claim theorems: validator -/

/-- C5: any SQL text containing a denylist keyword as a case-insensitive
whole word is rejected by `validate_sql` with the unsafe-operation message
naming a denylist keyword the text contains (the first such keyword in
denylist order). -/
theorem validator_unsafe_keyword
    (parse : List Char → Except (List Char) (Option ParsedQuery))
    (schemaCall : Except Unit Schema) (allowedTables : Option (List (List Char)))
    (sqlQuery kw : List Char) (hkw : kw ∈ UNSAFE_KEYWORDS)
    (hsearch : containsWordCI kw sqlQuery = true) :
    (validateSql parse schemaCall sqlQuery allowedTables).1 = false ∧
      ∃ kw2, kw2 ∈ UNSAFE_KEYWORDS ∧ containsWordCI kw2 sqlQuery = true ∧
        (validateSql parse schemaCall sqlQuery allowedTables).2 = unsafeMsg kw2 := by
  have hall : ∀ k2 ∈ UNSAFE_KEYWORDS, k2 ≠ [] ∧ k2.all isWordChar = true := by
    decide
  have hbridge : ∀ k2 ∈ UNSAFE_KEYWORDS,
      searchWord k2 (upperPy (stripPy sqlQuery)) = containsWordCI k2 sqlQuery := by
    intro k2 hk2
    obtain ⟨hne2, hword2⟩ := hall k2 hk2
    obtain ⟨k, ks, rfl⟩ := List.exists_cons_of_ne_nil hne2
    unfold containsWordCI
    rw [← strip_upper_comm]
    exact searchWord_strip k ks hword2 (upperPy sqlQuery)
  have hsearch2 : searchWord kw (upperPy (stripPy sqlQuery)) = true := by
    rw [hbridge kw hkw]
    exact hsearch
  have hstrip_ne : stripPy sqlQuery ≠ [] := by
    intro he
    rw [he] at hsearch2
    obtain ⟨hne2, _⟩ := hall kw hkw
    obtain ⟨k, ks, rfl⟩ := List.exists_cons_of_ne_nil hne2
    simp [upperPy, searchWord, searchWordFrom, matchKwHere, boundaryOk] at hsearch2
  have hfind : ∃ kw2, UNSAFE_KEYWORDS.find?
      (fun k2 => searchWord k2 (upperPy (stripPy sqlQuery))) = some kw2 := by
    have hex : ∃ x ∈ UNSAFE_KEYWORDS,
        searchWord x (upperPy (stripPy sqlQuery)) = true := ⟨kw, hkw, hsearch2⟩
    exact Option.isSome_iff_exists.mp (List.find?_isSome.mpr hex)
  obtain ⟨kw2, hkw2u⟩ := hfind
  have hkw2 : findUnsafe (upperPy (stripPy sqlQuery)) = some kw2 := hkw2u
  have hkw2mem : kw2 ∈ UNSAFE_KEYWORDS := List.mem_of_find?_eq_some hkw2u
  have hkw2p : searchWord kw2 (upperPy (stripPy sqlQuery)) = true := by
    have h5 := List.find?_some hkw2u
    simpa using h5
  have hval : validateSql parse schemaCall sqlQuery allowedTables =
      (false, unsafeMsg kw2) := by
    unfold validateSql
    rw [if_neg hstrip_ne]
    simp only [hkw2]
  refine ⟨by rw [hval], kw2, hkw2mem, ?_, by rw [hval]⟩
  rw [← hbridge kw2 hkw2mem]
  exact hkw2p

/-- Witness for C5: `validate("DROP TABLE customers;", ...)` is invalid
with the message naming a denylist keyword the text contains. -/
theorem validator_unsafe_keyword_witness :
    (validateSql probeParse (Except.error ())
        "DROP TABLE customers;".toList none).1 = false ∧
      ∃ kw2, kw2 ∈ UNSAFE_KEYWORDS ∧
        containsWordCI kw2 "DROP TABLE customers;".toList = true ∧
        (validateSql probeParse (Except.error ())
          "DROP TABLE customers;".toList none).2 = unsafeMsg kw2 :=
  validator_unsafe_keyword probeParse (Except.error ()) none
    "DROP TABLE customers;".toList "DROP".toList (by decide) (by decide)

/-- The validator result of `"DROP TABLE customers;"` computes to the
invalid result naming `DROP`, the claim instance of C5. -/
theorem validator_drop_rejected :
    validateSql probeParse (Except.error ()) "DROP TABLE customers;".toList none =
      (false, unsafeMsg "DROP".toList) := by
  decide

/-- C7: when the schema-introspection collaborator raises, `validate_sql`
swallows the exception, treats the schema stage as passed, and proceeds to
the statement-count stage: the outcome is decided by the semicolon check
alone, never by the introspection failure. -/
theorem validator_schema_failure_fail_open
    (parse : List Char → Except (List Char) (Option ParsedQuery))
    (s : List Char) (allowedTables : Option (List (List Char))) (pq : ParsedQuery)
    (hne : stripPy s ≠ []) (hsafe : findUnsafe (upperPy (stripPy s)) = none)
    (hparse : parse (stripPy s) = Except.ok (some pq)) :
    validateSql parse (Except.error ()) s allowedTables =
      (if semicolonBeforeEnd (stripPy s) then
        (false, "Multiple statements not allowed".toList)
      else (true, "Query is valid".toList)) := by
  unfold validateSql
  rw [if_neg hne]
  simp only [hsafe, hparse, schemaStage]

/-- Witness for C7 at a concrete query and a raising collaborator. -/
theorem validator_schema_failure_fail_open_witness :
    validateSql probeParse (Except.error ()) probeSql none =
      (if semicolonBeforeEnd (stripPy probeSql) then
        (false, "Multiple statements not allowed".toList)
      else (true, "Query is valid".toList)) :=
  validator_schema_failure_fail_open probeParse probeSql none
    { tables := ["t".toList], columns := [(some "t".toList, "bogus".toList)] }
    (by decide) (by decide) rfl

/-- C8 counterexample: `validate` is not a pure function of its two
inputs. With the same `sqlText = "SELECT t.bogus FROM t"` and the same
`allowed_tables = ["t"]` argument, the result flips between invalid and
valid depending on the state of the global `db_manager.get_schema_info()`
collaborator (a catalog that knows `t` with only column `a`, versus an
introspection failure). -/
theorem validator_not_pure_cex :
    validateSql probeParse (Except.ok probeSchema) probeSql (some ["t".toList]) ≠
      validateSql probeParse (Except.error ()) probeSql (some ["t".toList]) := by
  decide

/-- C8 (amended): `validate_sql` keeps no internal mutable state, but its
result is a function of three inputs: the SQL text, the `allowed_tables`
argument, and the response of the global schema-introspection
collaborator. The collaborator can influence the result only when the
emptiness, safety and syntax stages have all passed. -/
theorem validator_schema_dependence_confined
    (parse : List Char → Except (List Char) (Option ParsedQuery))
    (s : List Char) (allowedTables : Option (List (List Char)))
    (sc1 sc2 : Except Unit Schema)
    (h : stripPy s = [] ∨ findUnsafe (upperPy (stripPy s)) ≠ none ∨
      ∀ pq, parse (stripPy s) ≠ Except.ok (some pq)) :
    validateSql parse sc1 s allowedTables = validateSql parse sc2 s allowedTables := by
  unfold validateSql
  rcases h with h | h | h
  · rw [if_pos h, if_pos h]
  · by_cases he : stripPy s = []
    · rw [if_pos he, if_pos he]
    · rw [if_neg he, if_neg he]
      obtain ⟨kw2, hkw2⟩ := Option.ne_none_iff_exists.mp h
      simp only [← hkw2]
  · by_cases he : stripPy s = []
    · rw [if_pos he, if_pos he]
    · rw [if_neg he, if_neg he]
      cases hfu : findUnsafe (upperPy (stripPy s)) with
      | some kw2 => simp only [hfu]
      | none =>
        simp only [hfu]
        cases hp : parse (stripPy s) with
        | error e => simp only [hp]
        | ok op =>
          cases op with
          | none => simp only [hp]
          | some pq => exact absurd hp (h pq)

/-- Witness for the amended C8 at a concrete unsafe query. -/
theorem validator_schema_dependence_confined_witness :
    validateSql probeParse (Except.ok probeSchema)
        "DROP TABLE customers;".toList none =
      validateSql probeParse (Except.error ())
        "DROP TABLE customers;".toList none :=
  validator_schema_dependence_confined probeParse
    "DROP TABLE customers;".toList none (Except.ok probeSchema)
    (Except.error ()) (Or.inr (Or.inl (by decide)))

end NL2SQL
